import Mathlib

/-!
Verification development for the `K_volume_mixer` repository
(`src/main.rs`): a shallow embedding of the volume-mixer's parsing,
state-refresh and command-construction logic, together with theorems
settling the specification's claims about it.

Modelling conventions.
Machine floats (`f32`) are modelled as exact rationals; Rust's
decimal-literal float parse becomes exact decimal-to-rational conversion
(the nonfinite literals `inf` and `nan` accepted by Rust lie outside the
rational model and none of the stated properties depends on them).
`HashMap` is modelled as an association list with replace-on-insert
semantics; iteration order is irrelevant to every stated property.
Panics (`expect`, `unwrap`) become an explicit `Outcome` type.  An
external command invocation is modelled by its observable result: an
`Except` value whose error case is spawn failure, and a record of exit
status and captured streams, a stream being `none` when its bytes are
not valid UTF-8.  Strings are processed as `List Char`, character for
character, mirroring the byte-level Rust code on the ASCII data the
program handles.
-/

namespace KVM

/-- Whitespace test standing for Rust `char::is_whitespace`, on the ASCII
range that tool output uses. -/
def isWs (c : Char) : Bool :=
  c == ' ' || c == '\t' || c == '\n' || c == '\r'

/-- Rust `str::trim_start`. -/
def trimStartCs (l : List Char) : List Char := l.dropWhile isWs

/-- Rust `str::trim`. -/
def trimCs (l : List Char) : List Char :=
  ((l.dropWhile isWs).reverse.dropWhile isWs).reverse

/-- Split a character list at every character satisfying `p`; separators
are dropped and adjacent separators create empty pieces, as for Rust
`str::split`. -/
def splitPred (p : Char → Bool) : List Char → List (List Char)
  | [] => [[]]
  | c :: cs =>
    let r := splitPred p cs
    if p c then [] :: r
    else
      match r with
      | [] => [[c]]
      | h :: t => (c :: h) :: t

/-- Rust `str::split` on a single-character pattern. -/
def splitChar (sep : Char) (l : List Char) : List (List Char) :=
  splitPred (fun c => c == sep) l

/-- Rust `str::split_whitespace`: the maximal nonempty runs of
non-whitespace characters. -/
def splitWsCs (l : List Char) : List (List Char) :=
  (splitPred isWs l).filter (fun p => !p.isEmpty)

/-- Rust `str::strip_prefix` with a literal pattern. -/
def stripPfxCs : List Char → List Char → Option (List Char)
  | [], l => some l
  | _ :: _, [] => none
  | p :: ps, c :: cs => if p == c then stripPfxCs ps cs else none

/-- Rust `str::starts_with` with a literal pattern. -/
def startsWithCs (p l : List Char) : Bool := (stripPfxCs p l).isSome

/-- Rust `str::split_once` with a literal pattern: split at the first
occurrence of `sep`. -/
def splitOnceCs (sep : List Char) : List Char → Option (List Char × List Char)
  | [] =>
    match stripPfxCs sep [] with
    | some rest => some ([], rest)
    | none => none
  | c :: cs =>
    match stripPfxCs sep (c :: cs) with
    | some rest => some ([], rest)
    | none => (splitOnceCs sep cs).map (fun q => (c :: q.1, q.2))

/-- Rust `str::trim_matches` with a single-character pattern: remove every
leading and trailing occurrence. -/
def trimMatchesChar (ch : Char) (l : List Char) : List Char :=
  ((l.dropWhile (fun c => c == ch)).reverse.dropWhile (fun c => c == ch)).reverse

/-- Rust `str::strip_suffix` with a single-character pattern. -/
def stripSfxChar (ch : Char) (l : List Char) : Option (List Char) :=
  match l.getLast? with
  | some c => if c == ch then some l.dropLast else none
  | none => none

/-- Numeric value of a list of decimal digit characters. -/
def digitsToNat (l : List Char) : Nat :=
  l.foldl (fun a c => a * 10 + (c.toNat - 48)) 0

/-- Rust `str::parse::<u32>`: an optional `+`, one or more ASCII digits,
value within the `u32` range. -/
def parseU32 (l : List Char) : Option Nat :=
  let ds := match l with
    | '+' :: rest => rest
    | _ => l
  if ds.isEmpty then none
  else if ds.all Char.isDigit then
    if digitsToNat ds < 4294967296 then some (digitsToNat ds) else none
  else none

/-- Rust `str::parse::<f32>` over exact rationals: an optional sign, a
decimal mantissa holding at least one digit with an optional decimal
point, and an optional exponent. -/
def parseF32 (l : List Char) : Option ℚ :=
  let sgn : ℚ := match l with
    | '-' :: _ => -1
    | _ => 1
  let l1 : List Char := match l with
    | '-' :: rest => rest
    | '+' :: rest => rest
    | _ => l
  let ip := l1.takeWhile Char.isDigit
  let r1 := l1.dropWhile Char.isDigit
  let fp : List Char := match r1 with
    | '.' :: rest => rest.takeWhile Char.isDigit
    | _ => []
  let r2 : List Char := match r1 with
    | '.' :: rest => rest.dropWhile Char.isDigit
    | _ => r1
  if ip.isEmpty && fp.isEmpty then none
  else
    let mant : ℚ := sgn * ((digitsToNat ip : ℚ) + (digitsToNat fp : ℚ) / (10 : ℚ) ^ fp.length)
    match r2 with
    | [] => some mant
    | e :: r3 =>
      if e == 'e' || e == 'E' then
        let eneg : Bool := match r3 with
          | '-' :: _ => true
          | _ => false
        let ed : List Char := match r3 with
          | '-' :: rest => rest
          | '+' :: rest => rest
          | _ => r3
        if ed.isEmpty then none
        else if ed.all Char.isDigit then
          some (if eneg then mant / (10 : ℚ) ^ digitsToNat ed else mant * (10 : ℚ) ^ digitsToNat ed)
        else none
      else none

/-- Association-list insert with replace-on-collision, modelling
`HashMap::insert`. -/
def insertA {α β : Type} [DecidableEq α] : List (α × β) → α → β → List (α × β)
  | [], k, v => [(k, v)]
  | (k', v') :: t, k, v => if k' = k then (k, v) :: t else (k', v') :: insertA t k v

/-- Association-list lookup, modelling `HashMap::get`. -/
def lookupA {α β : Type} [DecidableEq α] : List (α × β) → α → Option β
  | [], _ => none
  | (k', v) :: t, k => if k' = k then some v else lookupA t k

/-- Key list of an association list. -/
def keysA {α β : Type} (l : List (α × β)) : List α := l.map Prod.fst

/-- Per-stream properties: Rust `HashMap<String, String>`. -/
abbrev PropMap := List (String × String)

/-- Parsed sink-input table: Rust `HashMap<u32, HashMap<String, String>>`. -/
abbrev Snapshot := List (Nat × PropMap)

/-- Result of running a piece of Rust code that may panic. -/
inductive Outcome (α : Type) where
  | ok (val : α)
  | panic (msg : String)
deriving DecidableEq

/-- Observable result of a completed external command: exit status and
captured streams; a stream is `none` when its bytes are not valid UTF-8.
Spawn failure is the `Except.error` case at each call site. -/
structure CmdOut where
  success : Bool
  stdout : Option String
  stderr : Option String
deriving DecidableEq

/-- Loop state of `parse_sink_inputs`: the table built so far and the
current-id cursor. -/
structure ParseSt where
  result : Snapshot
  currentId : Option Nat
deriving DecidableEq

/-- The block-header pattern `Sink Input #`. -/
def sinkInputPfx : List Char := ("Sink Input #").data

/-- The key/value separator pattern. -/
def eqSepCs : List Char := (" = ").data

/-- The volume-line pattern `Volume:`. -/
def volumePfx : List Char := ("Volume:").data

/-- Rewrite one property of stream `id`; `none` models the panic of
`result.get_mut(&id).unwrap()` when `id` is absent from the table. -/
def updateProp (m : Snapshot) (id : Nat) (k v : String) : Option Snapshot :=
  match lookupA m id with
  | some props => some (insertA m id (insertA props k v))
  | none => none

/-- First check of the loop body: a `Sink Input #` header line. -/
def headerStep (st : ParseSt) (trimmed : List Char) : ParseSt :=
  match stripPfxCs sinkInputPfx trimmed with
  | some idStr =>
    match parseU32 (trimCs idStr) with
    | some id => ⟨insertA st.result id [], some id⟩
    | none => st
  | none => st

/-- Second check of the loop body: a `key = value` line, quotes trimmed
from the value. -/
def kvStep (st : ParseSt) (trimmed : List Char) : Outcome ParseSt :=
  match splitOnceCs eqSepCs trimmed with
  | some kv =>
    match st.currentId with
    | some id =>
      match updateProp st.result id kv.1.asString (trimMatchesChar '"' kv.2).asString with
      | some m => .ok ⟨m, st.currentId⟩
      | none => .panic ("Option::unwrap on None")
    | none => .ok st
  | none => .ok st

/-- Third check of the loop body: a `Volume:` line, its remainder stored
under the synthetic `Volume` key. -/
def volumeStep (st : ParseSt) (trimmed : List Char) : Outcome ParseSt :=
  if startsWithCs volumePfx trimmed then
    match st.currentId with
    | some id =>
      match updateProp st.result id ("Volume") (trimCs (trimmed.drop volumePfx.length)).asString with
      | some m => .ok ⟨m, st.currentId⟩
      | none => .panic ("Option::unwrap on None")
    | none => .ok st
  else .ok st

/-- One iteration of the `for line in stdout.lines()` loop of
`parse_sink_inputs`: the three checks run in sequence on the same
left-trimmed line. -/
def processLine (st : ParseSt) (line : List Char) : Outcome ParseSt :=
  match kvStep (headerStep st (trimStartCs line)) (trimStartCs line) with
  | .ok st2 => volumeStep st2 (trimStartCs line)
  | .panic msg => .panic msg

/-- The parsing loop over a list of lines. -/
def parseLinesSt (st : ParseSt) : List (List Char) → Outcome ParseSt
  | [] => .ok st
  | l :: ls =>
    match processLine st l with
    | .ok st' => parseLinesSt st' ls
    | .panic msg => .panic msg

/-- Rust `str::lines`: split at newline characters, drop a final empty
piece, strip one trailing carriage return per line. -/
def rustLines (cs : List Char) : List (List Char) :=
  let parts := splitChar '\n' cs
  let parts := match parts.getLast? with
    | some [] => parts.dropLast
    | _ => parts
  parts.map (fun l =>
    match l.getLast? with
    | some '\r' => l.dropLast
    | _ => l)

/-- The line loop of `parse_sink_inputs` on decoded text. -/
def parseSinkText (s : String) : Outcome Snapshot :=
  match parseLinesSt ⟨[], none⟩ (rustLines s.data) with
  | .ok st => .ok st.result
  | .panic msg => .panic msg

/-- UTF-8 decoding step of `parse_sink_inputs`
(`str::from_utf8(..).expect("Invalid UTF-8 output")`) followed by the
line loop. -/
def parseSinkOutput (stdout : Option String) : Outcome Snapshot :=
  match stdout with
  | some s => parseSinkText s
  | none => .panic ("Invalid UTF-8 output")

/-- Whole body of `parse_sink_inputs`, spawn failure included
(`.expect("Failed to execute pactl")`); the exit status is not consulted,
as in the source. -/
def parse_sink_inputs (r : Except String CmdOut) : Outcome Snapshot :=
  match r with
  | .ok out => parseSinkOutput out.stdout
  | .error _ => .panic ("Failed to execute pactl")

/-- Volume-percentage extraction chain of `MyApp::update` and
`MyApp::refresh_apps`: `split('/')` then `.nth(1)`, `trim`,
`strip_suffix('%')`, `trim`, `parse::<f32>`. -/
def extract_percent (s : String) : Option ℚ :=
  match (splitChar '/' s.data)[1]? with
  | some f =>
    match stripSfxChar '%' (trimCs f) with
    | some ps => parseF32 (trimCs ps)
    | none => none
  | none => none

/-- The extraction chain exactly as the specification words it, without
the second trim between the `%`-strip and the numeric parse.  Kept only
for comparison with `extract_percent`; it is not part of the source. -/
def extract_percent_spec (s : String) : Option ℚ :=
  match (splitChar '/' s.data)[1]? with
  | some f =>
    match stripSfxChar '%' (trimCs f) with
    | some ps => parseF32 ps
    | none => none
  | none => none

/-- Volume chain on one stream's properties: `data.get("Volume")`
followed by `extract_percent`. -/
def volumeOfProps (d : PropMap) : Option ℚ :=
  match lookupA d ("Volume") with
  | some volStr => extract_percent volStr
  | none => none

/-- One turn of the `per_app_volumes` rebuild loop. -/
def deriveStep (acc : List (Nat × ℚ)) (pd : Nat × PropMap) : List (Nat × ℚ) :=
  match volumeOfProps pd.2 with
  | some p => insertA acc pd.1 p
  | none => acc

/-- Rebuild of `per_app_volumes` from a snapshot: the clear-then-insert
loop shared by `MyApp::update` and `MyApp::refresh_apps`. -/
def derive_volumes (apps : Snapshot) : List (Nat × ℚ) :=
  apps.foldl deriveStep []

/-- `get_system_volume`: spawn failure panics
(`.expect("failed to get volume")`); on success the placeholder
`invalid UTF-8` replaces undecodable output, the last whitespace-separated
token is parsed and scaled by `100`; every remaining case yields `none`
after a log line. -/
def get_system_volume (r : Except String CmdOut) : Outcome (Option ℚ) :=
  match r with
  | .error _ => .panic ("failed to get volume")
  | .ok out =>
    if out.success then
      match (splitWsCs (trimCs (out.stdout.getD ("invalid UTF-8")).data)).getLast? with
      | some tok =>
        match parseF32 tok with
        | some v => .ok (some (v * 100))
        | none => .ok none
      | none => .ok none
    else .ok none

/-- In-memory state of `MyApp` (the GUI-only fields are omitted). -/
structure AppState where
  apps : Snapshot
  per_app_volumes : List (Nat × ℚ)
  vol : ℚ
deriving DecidableEq

/-- Per-snapshot body of the drain loop in `MyApp::update`: install the
snapshot, rebuild `per_app_volumes`, then refresh the main volume from a
`get_system_volume` call. -/
def update_step (st : AppState) (snap : Snapshot) (sysr : Except String CmdOut) :
    Outcome AppState :=
  let st1 : AppState := ⟨snap, derive_volumes snap, st.vol⟩
  match get_system_volume sysr with
  | .panic msg => .panic msg
  | .ok (some v) => .ok { st1 with vol := v }
  | .ok none => .ok st1

/-- The whole drain loop of `MyApp::update`: one `update_step` per pending
snapshot, each paired with the result of its `wpctl` query. -/
def update_drain (st : AppState) : List (Snapshot × Except String CmdOut) → Outcome AppState
  | [] => .ok st
  | (snap, r) :: rest =>
    match update_step st snap r with
    | .ok st' => update_drain st' rest
    | .panic msg => .panic msg

/-- `MyApp::refresh_apps`: re-parse the stream list, rebuild
`per_app_volumes`, then re-query the main volume; the re-query takes the
second whitespace token, panics on spawn failure (`.unwrap()`) and uses
an empty-string placeholder for non-UTF-8 output. -/
def refresh_apps (st : AppState) (listR : Except String CmdOut) (sysR : Except String CmdOut) :
    Outcome AppState :=
  match parse_sink_inputs listR with
  | .panic msg => .panic msg
  | .ok snap =>
    match sysR with
    | .error _ => .panic ("Result::unwrap on Err")
    | .ok out =>
      if out.success then
        match (splitWsCs (trimCs (out.stdout.getD ("")).data))[1]? with
        | some tok =>
          match parseF32 tok with
          | some v => .ok ⟨snap, derive_volumes snap, v * 100⟩
          | none => .ok ⟨snap, derive_volumes snap, st.vol⟩
        | none => .ok ⟨snap, derive_volumes snap, st.vol⟩
      else .ok ⟨snap, derive_volumes snap, st.vol⟩

/-- An external command about to be spawned: program and arguments.  The
mutating call sites discard the command's result (`let _ = ...`), so the
command description is their entire observable behaviour. -/
structure Cmd where
  program : String
  args : List String
deriving DecidableEq

/-- Round to the nearest integer, ties to even: the rounding of Rust's
fixed-precision float formatting. -/
def roundHalfEven (q : ℚ) : ℤ :=
  let fl := q.floor
  if q - (fl : ℚ) < 1/2 then fl
  else if q - (fl : ℚ) > 1/2 then fl + 1
  else if fl % 2 = 0 then fl else fl + 1

/-- A natural number below 100 printed as exactly two digits. -/
def pad2 (n : Nat) : String :=
  if n < 10 then ("0") ++ Nat.repr n else Nat.repr n

/-- Rust `format!("{:.2}", v)` on the rational model: sign, integer part,
a point, and exactly two fractional digits. -/
def formatFixed2 (q : ℚ) : String :=
  let sign := if q < 0 then ("-") else ("")
  let n := (roundHalfEven (abs q * 100)).toNat
  sign ++ Nat.repr (n / 100) ++ (".") ++ pad2 (n % 100)

/-- `set_main_volume`: `wpctl set-volume @DEFAULT_AUDIO_SINK@ {:.2}%`. -/
def set_main_volume (vol : ℚ) : Cmd :=
  ⟨("wpctl"), [("set-volume"), ("@DEFAULT_AUDIO_SINK@"), formatFixed2 vol ++ ("%")]⟩

/-- The least number of decimal digits with which a rational is exactly
representable, when one exists. -/
def decDigits (q : ℚ) : Option Nat :=
  (List.range (q.den + 1)).find? (fun k => (q * (10 : ℚ) ^ k).den = 1)

/-- Left-pad a digit string to `k` digits. -/
def padDigits (k : Nat) (n : Nat) : String :=
  (String.mk (List.replicate (k - (Nat.repr n).length) '0')) ++ Nat.repr n

/-- Rust `format!("{}", v)` for `f32` prints the shortest decimal literal
reading back as the same float; on the exact-rational model this is the
exact value with the least number of decimal digits.  A value without a
finite decimal expansion cannot arise from a decimal parse and gets a
fallback fraction rendering. -/
def formatF32Display (q : ℚ) : String :=
  let sign := if q < 0 then ("-") else ("")
  let a := abs q
  match decDigits a with
  | some 0 => sign ++ Nat.repr a.num.toNat
  | some (k + 1) =>
    let n := (a * (10 : ℚ) ^ (k + 1)).num.toNat
    sign ++ Nat.repr (n / 10 ^ (k + 1)) ++ (".") ++ padDigits (k + 1) (n % 10 ^ (k + 1))
  | none => sign ++ Nat.repr a.num.toNat ++ ("/") ++ Nat.repr a.den

/-- `set_app_volume`: `pactl set-sink-input-volume <id> {}%`. -/
def set_app_volume (index : Nat) (vol : ℚ) : Cmd :=
  ⟨("pactl"), [("set-sink-input-volume"), Nat.repr index, formatF32Display vol ++ ("%")]⟩

/-- Observable actions of one iteration of the background thread. -/
inductive LoopEvent where
  | parseList
  | send (ok : Bool)
  | sleepSec (n : Nat)
deriving DecidableEq

/-- How a terminated run of the background thread ended. -/
inductive LoopStop where
  | channelClosed
  | panicked (msg : String)
deriving DecidableEq

/-- The background thread spawned in `MyApp::default`: parse, best-effort
send, 1-second sleep, repeated; `break` right after the first failed
send; a panic inside `parse_sink_inputs` ends the thread with that panic.
`fuel` bounds the observation: `none` means the loop is still running
after `fuel` iterations. -/
def refresh_loop (parses : Nat → Outcome Snapshot) (sends : Nat → Bool) :
    Nat → Option (List LoopEvent × LoopStop)
  | 0 => none
  | fuel + 1 =>
    match parses 0 with
    | .panic msg => some ([.parseList], .panicked msg)
    | .ok _ =>
      if sends 0 then
        match refresh_loop (fun i => parses (i + 1)) (fun i => sends (i + 1)) fuel with
        | some (t, stop) => some (.parseList :: .send true :: .sleepSec 1 :: t, stop)
        | none => none
      else some ([.parseList, .send false], .channelClosed)

/-- The event trace of a run whose sends `0 .. n-1` succeed and whose
send `n` fails. -/
def sendFailTrace : Nat → List LoopEvent
  | 0 => [.parseList, .send false]
  | n + 1 => .parseList :: .send true :: .sleepSec 1 :: sendFailTrace n

/-! Association-list lemmas. -/

theorem lookupA_insertA_self {α β : Type} [DecidableEq α] (l : List (α × β)) (k : α) (v : β) :
    lookupA (insertA l k v) k = some v := by
  induction l with
  | nil => simp [insertA, lookupA]
  | cons hd t ih =>
    obtain ⟨k0, v0⟩ := hd
    by_cases hk : k0 = k
    · subst hk; simp [insertA, lookupA]
    · simp [insertA, lookupA, hk, ih]

theorem lookupA_insertA_ne {α β : Type} [DecidableEq α] (l : List (α × β)) {k k' : α} (v : β)
    (h : k' ≠ k) : lookupA (insertA l k v) k' = lookupA l k' := by
  induction l with
  | nil => simp [insertA, lookupA, Ne.symm h]
  | cons hd t ih =>
    obtain ⟨k0, v0⟩ := hd
    by_cases hk : k0 = k
    · subst hk; simp [insertA, lookupA, Ne.symm h]
    · simp only [insertA, if_neg hk, lookupA]
      split
      · rfl
      · exact ih

theorem lookupA_isSome_iff {α β : Type} [DecidableEq α] (l : List (α × β)) (k : α) :
    (lookupA l k).isSome = true ↔ k ∈ keysA l := by
  induction l with
  | nil => simp [lookupA, keysA]
  | cons hd t ih =>
    obtain ⟨k0, v0⟩ := hd
    by_cases hk : k0 = k
    · subst hk; simp [lookupA, keysA]
    · simp [lookupA, keysA, hk, ih, Ne.symm hk]

theorem lookupA_eq_none_of_not_mem {α β : Type} [DecidableEq α] {l : List (α × β)} {k : α}
    (h : k ∉ keysA l) : lookupA l k = none := by
  cases hl : lookupA l k with
  | none => rfl
  | some v =>
    exact absurd ((lookupA_isSome_iff l k).mp (by simp [hl])) h

theorem keysA_insertA_subset {α β : Type} [DecidableEq α] (l : List (α × β)) (k : α) (v : β) :
    keysA (insertA l k v) ⊆ k :: keysA l := by
  induction l with
  | nil => simp [insertA, keysA]
  | cons hd t ih =>
    obtain ⟨k0, v0⟩ := hd
    by_cases hk : k0 = k
    · subst hk; simp [insertA, keysA, List.Subset.refl]
    · intro x hx
      simp only [insertA, if_neg hk, keysA, List.map_cons, List.mem_cons] at hx
      simp only [keysA, List.map_cons, List.mem_cons]
      rcases hx with hx | hx
      · exact Or.inr (Or.inl hx)
      · have h2 := ih hx
        simp only [keysA, List.mem_cons] at h2
        tauto

theorem insertA_eq_append {α β : Type} [DecidableEq α] {l : List (α × β)} {k : α} (v : β)
    (h : k ∉ keysA l) : insertA l k v = l ++ [(k, v)] := by
  induction l with
  | nil => simp [insertA]
  | cons hd t ih =>
    obtain ⟨k0, v0⟩ := hd
    simp only [keysA, List.map_cons, List.mem_cons] at h
    push_neg at h
    simp [insertA, Ne.symm h.1, ih h.2]

/-! `derive_volumes` characterization. -/

theorem keysA_foldl_deriveStep (apps : Snapshot) (acc : List (Nat × ℚ)) :
    keysA (apps.foldl deriveStep acc) ⊆ keysA acc ++ keysA apps := by
  induction apps generalizing acc with
  | nil => simp [keysA]
  | cons pd t ih =>
    intro x hx
    have hstep : keysA (deriveStep acc pd) ⊆ pd.1 :: keysA acc := by
      unfold deriveStep
      split
      · exact keysA_insertA_subset acc pd.1 _
      · exact List.subset_cons_self _ _
    have hx' := ih (deriveStep acc pd) hx
    rw [List.mem_append] at hx'
    rw [List.mem_append]
    simp only [keysA, List.map_cons, List.mem_cons]
    rcases hx' with hx' | hx'
    · have h2 := hstep hx'
      rcases List.mem_cons.mp h2 with h1 | h1
      · exact Or.inr (Or.inl h1)
      · exact Or.inl h1
    · exact Or.inr (Or.inr hx')

/-- The key set of the derived volume table sits inside the snapshot's. -/
theorem keysA_derive_volumes_subset (apps : Snapshot) :
    keysA (derive_volumes apps) ⊆ keysA apps := by
  have := keysA_foldl_deriveStep apps []
  simpa [derive_volumes, keysA] using this

/-- The contribution of one snapshot entry to the volume table. -/
def deriveEntry (pd : Nat × PropMap) : Option (Nat × ℚ) :=
  (volumeOfProps pd.2).map (fun p => (pd.1, p))

theorem foldl_deriveStep_eq_append (apps : Snapshot) :
    ∀ acc : List (Nat × ℚ), (keysA apps).Nodup →
      (∀ k, k ∈ keysA apps → k ∉ keysA acc) →
      apps.foldl deriveStep acc = acc ++ apps.filterMap deriveEntry := by
  induction apps with
  | nil => intro acc _ _; simp
  | cons pd t ih =>
    intro acc hnd hdisj
    simp only [keysA, List.map_cons, List.nodup_cons] at hnd
    have hmemc : ∀ k, k ∈ keysA t → k ∈ keysA (pd :: t) := by
      intro k hk
      simp only [keysA, List.map_cons, List.mem_cons]
      exact Or.inr hk
    have hmem : pd.1 ∉ keysA acc :=
      hdisj pd.1 (List.mem_cons_self pd.1 (List.map Prod.fst t))
    rcases ho : volumeOfProps pd.2 with _ | p
    · have hid : deriveStep acc pd = acc := by
        unfold deriveStep; rw [ho]
      simp only [List.foldl_cons, hid]
      rw [ih acc hnd.2 (fun k hk => hdisj k (hmemc k hk))]
      simp [deriveEntry, ho]
    · have hstep' : deriveStep acc pd = acc ++ [(pd.1, p)] := by
        unfold deriveStep; rw [ho]
        exact insertA_eq_append p hmem
      simp only [List.foldl_cons, hstep']
      rw [ih (acc ++ [(pd.1, p)]) hnd.2 ?_]
      · simp [deriveEntry, ho]
      · intro k hk hcon
        simp only [keysA, List.map_append, List.mem_append, List.map_cons, List.map_nil,
          List.mem_cons, List.not_mem_nil, or_false] at hcon
        rcases hcon with hc | hc
        · exact hdisj k (hmemc k hk) hc
        · exact hnd.1 (hc ▸ hk)

theorem lookupA_filterMap_deriveEntry (apps : Snapshot) (pid : Nat)
    (hnd : (keysA apps).Nodup) :
    lookupA (apps.filterMap deriveEntry) pid = (lookupA apps pid).bind volumeOfProps := by
  induction apps with
  | nil => simp [lookupA]
  | cons pd t ih =>
    obtain ⟨k0, d0⟩ := pd
    simp only [keysA, List.map_cons, List.nodup_cons] at hnd
    by_cases hk : k0 = pid
    · subst hk
      rcases ho : volumeOfProps d0 with _ | p
      · have hnone : lookupA (t.filterMap deriveEntry) k0 = none := by
          apply lookupA_eq_none_of_not_mem
          intro hmem
          have hsub : keysA (t.filterMap deriveEntry) ⊆ keysA t := by
            intro x hx
            simp only [keysA, List.mem_map] at hx
            obtain ⟨q, hq, hqx⟩ := hx
            simp only [List.mem_filterMap] at hq
            obtain ⟨pe, hpe, hde⟩ := hq
            simp only [deriveEntry, Option.map_eq_some'] at hde
            obtain ⟨p0, _, hp0⟩ := hde
            subst hp0
            simp only [keysA, List.mem_map]
            exact ⟨pe, hpe, hqx⟩
          exact hnd.1 (hsub hmem)
        simp [List.filterMap_cons, deriveEntry, ho, lookupA, hnone]
      · simp [List.filterMap_cons, deriveEntry, ho, lookupA]
    · rcases ho : volumeOfProps d0 with _ | p
      · simp only [List.filterMap_cons, deriveEntry, ho, Option.map_none']
        rw [ih hnd.2]
        simp [lookupA, hk]
      · simp only [List.filterMap_cons, deriveEntry, ho, Option.map_some']
        simp only [lookupA, if_neg hk]
        exact ih hnd.2

/-- Pointwise reading of the volume-table rebuild: on a duplicate-free
snapshot (which every `HashMap` iteration is), the derived entry of a
stream is exactly the extraction chain applied to its `Volume` property,
absent entries included. -/
theorem lookupA_derive_volumes (apps : Snapshot) (pid : Nat)
    (hnd : (keysA apps).Nodup) :
    lookupA (derive_volumes apps) pid = (lookupA apps pid).bind volumeOfProps := by
  unfold derive_volumes
  rw [foldl_deriveStep_eq_append apps [] hnd (by simp [keysA])]
  simpa using lookupA_filterMap_deriveEntry apps pid hnd

/-! Parser invariant: whenever the cursor holds an id, that id is a key of
the result table, so the `get_mut(..).unwrap()` calls cannot fire. -/

/-- The loop invariant of `parse_sink_inputs`. -/
def InvSt (st : ParseSt) : Prop :=
  ∀ id, st.currentId = some id → (lookupA st.result id).isSome = true

theorem invSt_init : InvSt ⟨[], none⟩ := by
  intro id h
  simp at h

theorem invSt_headerStep (st : ParseSt) (t : List Char) (h : InvSt st) :
    InvSt (headerStep st t) := by
  unfold headerStep
  split
  · split
    · intro id hid
      simp only at hid
      cases hid
      simp [lookupA_insertA_self]
    · exact h
  · exact h

theorem headerStep_currentId (st : ParseSt) (t : List Char) :
    headerStep st t = st ∨ ∃ id, (headerStep st t).currentId = some id := by
  unfold headerStep
  split
  · split
    · right; exact ⟨_, rfl⟩
    · left; rfl
  · left; rfl

theorem kvStep_ok (st : ParseSt) (t : List Char) (h : InvSt st) :
    ∃ st', kvStep st t = .ok st' ∧ InvSt st' ∧ st'.currentId = st.currentId := by
  unfold kvStep
  split
  · next kv hkv =>
    split
    · next id hid =>
      obtain ⟨props, hp⟩ := Option.isSome_iff_exists.mp (h id hid)
      refine ⟨⟨insertA st.result id
          (insertA props kv.1.asString (trimMatchesChar '"' kv.2).asString), st.currentId⟩,
        ?_, ?_, rfl⟩
      · simp [updateProp, hp]
      · intro id' hid'
        simp only at hid'
        rw [hid] at hid'
        cases hid'
        simp [lookupA_insertA_self]
    · exact ⟨st, rfl, h, rfl⟩
  · exact ⟨st, rfl, h, rfl⟩

theorem volumeStep_ok (st : ParseSt) (t : List Char) (h : InvSt st) :
    ∃ st', volumeStep st t = .ok st' ∧ InvSt st' ∧ st'.currentId = st.currentId := by
  unfold volumeStep
  split
  · split
    · next id hid =>
      obtain ⟨props, hp⟩ := Option.isSome_iff_exists.mp (h id hid)
      refine ⟨⟨insertA st.result id
          (insertA props ("Volume") (trimCs (t.drop volumePfx.length)).asString), st.currentId⟩,
        ?_, ?_, rfl⟩
      · simp [updateProp, hp]
      · intro id' hid'
        simp only at hid'
        rw [hid] at hid'
        cases hid'
        simp [lookupA_insertA_self]
    · exact ⟨st, rfl, h, rfl⟩
  · exact ⟨st, rfl, h, rfl⟩

theorem processLine_ok (st : ParseSt) (l : List Char) (h : InvSt st) :
    ∃ st', processLine st l = .ok st' ∧ InvSt st' := by
  unfold processLine
  have h1 : InvSt (headerStep st (trimStartCs l)) := invSt_headerStep st _ h
  obtain ⟨st2, h2, h2i, _⟩ := kvStep_ok (headerStep st (trimStartCs l)) (trimStartCs l) h1
  obtain ⟨st3, h3, h3i, _⟩ := volumeStep_ok st2 (trimStartCs l) h2i
  exact ⟨st3, by rw [h2]; exact h3, h3i⟩

theorem parseLinesSt_ok (ls : List (List Char)) (st : ParseSt) (h : InvSt st) :
    ∃ st', parseLinesSt st ls = .ok st' ∧ InvSt st' := by
  induction ls generalizing st with
  | nil => exact ⟨st, rfl, h⟩
  | cons l t ih =>
    obtain ⟨st1, h1, h1i⟩ := processLine_ok st l h
    obtain ⟨st', h', h'i⟩ := ih st1 h1i
    refine ⟨st', ?_, h'i⟩
    simp only [parseLinesSt, h1]
    exact h'

/-- The line loop never panics: its two `unwrap`s are unreachable. -/
theorem parseSinkText_ok (s : String) : ∃ m, parseSinkText s = .ok m := by
  obtain ⟨st', h', _⟩ := parseLinesSt_ok (rustLines s.data) ⟨[], none⟩ invSt_init
  exact ⟨st'.result, by simp [parseSinkText, h']⟩

/-! Lines seen while the cursor is unset and no well-formed header is on
them leave the parser state untouched. -/

/-- A line whose left-trimmed form is `Sink Input #<n>` with `<n>` a
`u32`. -/
def isGoodHeader (l : List Char) : Bool :=
  ((stripPfxCs sinkInputPfx (trimStartCs l)).bind (fun r => parseU32 (trimCs r))).isSome

theorem headerStep_eq_of_not_good (st : ParseSt) (l : List Char)
    (h : isGoodHeader l = false) : headerStep st (trimStartCs l) = st := by
  unfold isGoodHeader at h
  unfold headerStep
  split
  · next r hr =>
    rw [hr, Option.some_bind] at h
    split
    · next id hid => rw [hid] at h; simp at h
    · rfl
  · rfl

theorem kvStep_none (st : ParseSt) (t : List Char) (h : st.currentId = none) :
    kvStep st t = .ok st := by
  unfold kvStep
  split
  · rw [h]
  · rfl

theorem volumeStep_none (st : ParseSt) (t : List Char) (h : st.currentId = none) :
    volumeStep st t = .ok st := by
  unfold volumeStep
  split
  · rw [h]
  · rfl

theorem processLine_noop (st : ParseSt) (l : List Char) (hc : st.currentId = none)
    (hh : isGoodHeader l = false) : processLine st l = .ok st := by
  unfold processLine
  simp only [headerStep_eq_of_not_good st l hh, kvStep_none st _ hc]
  exact volumeStep_none st _ hc

theorem parseLinesSt_append_of_no_header (pre rest : List (List Char)) (st : ParseSt)
    (hc : st.currentId = none) (hl : ∀ l ∈ pre, isGoodHeader l = false) :
    parseLinesSt st (pre ++ rest) = parseLinesSt st rest := by
  induction pre with
  | nil => rfl
  | cons l t ih =>
    have h1 : processLine st l = .ok st := processLine_noop st l hc (hl l (by simp))
    simp only [List.cons_append, parseLinesSt, h1]
    exact ih (fun x hx => hl x (by simp [hx]))

/-! A `Sink Input #` line whose id does not parse leaves the whole state,
the cursor included, untouched. -/

theorem stripPfxCs_head {p : Char} {ps l r : List Char}
    (h : stripPfxCs (p :: ps) l = some r) : ∃ t, l = p :: t := by
  cases l with
  | nil => simp [stripPfxCs] at h
  | cons c cs =>
    refine ⟨cs, ?_⟩
    by_cases hc : p == c
    · rw [(by exact of_decide_eq_true hc : p = c)]
    · simp [stripPfxCs, hc] at h

theorem processLine_malformed_header (st : ParseSt) (l r : List Char)
    (h1 : stripPfxCs sinkInputPfx (trimStartCs l) = some r)
    (h2 : parseU32 (trimCs r) = none)
    (h3 : splitOnceCs eqSepCs (trimStartCs l) = none) :
    processLine st l = .ok st := by
  have hpfx : sinkInputPfx = 'S' :: ("ink Input #").data := rfl
  obtain ⟨t, ht⟩ := stripPfxCs_head (hpfx ▸ h1)
  have hhead : headerStep st (trimStartCs l) = st := by
    unfold headerStep
    simp only [h1, h2]
  have hkv : kvStep st (trimStartCs l) = .ok st := by
    unfold kvStep
    simp only [h3]
  have hvol : volumeStep st (trimStartCs l) = .ok st := by
    unfold volumeStep
    have : startsWithCs volumePfx (trimStartCs l) = false := by
      rw [ht]
      rfl
    rw [this]
    simp
  unfold processLine
  simp only [hhead, hkv]
  exact hvol

/-! Refresh-loop runs. -/

theorem refresh_loop_runs_forever (parses : Nat → Outcome Snapshot) (sends : Nat → Bool)
    (hp : ∀ i, ∃ s, parses i = .ok s) (hs : ∀ i, sends i = true) :
    ∀ fuel, refresh_loop parses sends fuel = none := by
  intro fuel
  induction fuel generalizing parses sends with
  | zero => rfl
  | succ n ih =>
    obtain ⟨s, h0⟩ := hp 0
    simp only [refresh_loop, h0, hs 0, if_true]
    rw [ih _ _ (fun i => hp (i + 1)) (fun i => hs (i + 1))]

theorem refresh_loop_stops_at_first_failed_send (n : Nat) :
    ∀ (parses : Nat → Outcome Snapshot) (sends : Nat → Bool) (fuel : Nat),
      (∀ i, ∃ s, parses i = .ok s) → (∀ i, i < n → sends i = true) → sends n = false →
      n < fuel → refresh_loop parses sends fuel = some (sendFailTrace n, .channelClosed) := by
  induction n with
  | zero =>
    intro parses sends fuel hp _ hn hf
    cases fuel with
    | zero => omega
    | succ m =>
      obtain ⟨s, h0⟩ := hp 0
      simp [refresh_loop, h0, hn, sendFailTrace]
  | succ k ih =>
    intro parses sends fuel hp hs hn hf
    cases fuel with
    | zero => omega
    | succ m =>
      obtain ⟨s, h0⟩ := hp 0
      have hs0 : sends 0 = true := hs 0 (Nat.succ_pos k)
      have hrec := ih (fun i => parses (i + 1)) (fun i => sends (i + 1)) m
        (fun i => hp (i + 1)) (fun i hi => hs (i + 1) (Nat.succ_lt_succ hi)) hn (by omega)
      simp [refresh_loop, h0, hs0, hrec, sendFailTrace]

/-! State-update facts. -/

theorem update_step_ok_fields (st : AppState) (snap : Snapshot) (r : Except String CmdOut)
    (st' : AppState) (h : update_step st snap r = .ok st') :
    st'.apps = snap ∧ st'.per_app_volumes = derive_volumes snap := by
  unfold update_step at h
  split at h
  · exact absurd h (by simp)
  · next v heq =>
    cases h
    exact ⟨rfl, rfl⟩
  · cases h
    exact ⟨rfl, rfl⟩

theorem update_step_ok_vol (st : AppState) (snap : Snapshot) (r : Except String CmdOut)
    (st' : AppState) (hnone : get_system_volume r = .ok none)
    (h : update_step st snap r = .ok st') : st'.vol = st.vol := by
  unfold update_step at h
  rw [hnone] at h
  cases h
  rfl

theorem refresh_apps_ok_fields (st : AppState) (r1 r2 : Except String CmdOut)
    (st' : AppState) (h : refresh_apps st r1 r2 = .ok st') :
    ∃ snap, parse_sink_inputs r1 = .ok snap ∧
      st'.apps = snap ∧ st'.per_app_volumes = derive_volumes snap := by
  unfold refresh_apps at h
  split at h
  · exact absurd h (by simp)
  · next snap hsnap =>
    refine ⟨snap, hsnap, ?_⟩
    split at h
    · exact absurd h (by simp)
    · split at h
      · split at h
        · split at h
          · cases h; exact ⟨rfl, rfl⟩
          · cases h; exact ⟨rfl, rfl⟩
        · cases h; exact ⟨rfl, rfl⟩
      · cases h; exact ⟨rfl, rfl⟩

theorem get_system_volume_ok_never_panics (out : CmdOut) :
    ∃ v, get_system_volume (.ok out) = .ok v := by
  simp only [get_system_volume]
  split
  · split
    · split
      · exact ⟨_, rfl⟩
      · exact ⟨_, rfl⟩
    · exact ⟨_, rfl⟩
  · exact ⟨_, rfl⟩

/-! Fixed-precision formatting facts. -/

theorem pad2_length : ∀ m, m < 100 → (pad2 m).length = 2 := by decide

theorem formatFixed2_shape (q : ℚ) :
    ∃ s m, formatFixed2 q = s ++ (".") ++ pad2 m ∧ m < 100 := by
  refine ⟨(if q < 0 then ("-") else ("")) ++
      Nat.repr ((roundHalfEven (abs q * 100)).toNat / 100),
    (roundHalfEven (abs q * 100)).toNat % 100, ?_, Nat.mod_lt _ (by norm_num)⟩
  unfold formatFixed2
  rfl

theorem volumeOfProps_eq_bind (d : PropMap) :
    volumeOfProps d = (lookupA d ("Volume")).bind extract_percent := by
  unfold volumeOfProps
  cases lookupA d ("Volume") <;> rfl

theorem update_drain_subset (batch : List (Snapshot × Except String CmdOut)) :
    ∀ (st st' : AppState), batch ≠ [] → update_drain st batch = .ok st' →
      keysA st'.per_app_volumes ⊆ keysA st'.apps := by
  induction batch with
  | nil =>
    intro st st' hne _
    exact absurd rfl hne
  | cons hd rest ih =>
    intro st st' _ h
    obtain ⟨snap, r⟩ := hd
    simp only [update_drain] at h
    cases hu : update_step st snap r with
    | panic m =>
      rw [hu] at h
      exact Outcome.noConfusion (show Outcome.panic (α := AppState) m = .ok st' from h)
    | ok st1 =>
      rw [hu] at h
      replace h : update_drain st1 rest = .ok st' := h
      cases rest with
      | nil =>
        simp only [update_drain] at h
        cases h
        obtain ⟨ha, hp⟩ := update_step_ok_fields st snap r _ hu
        rw [ha, hp]
        exact keysA_derive_volumes_subset snap
      | cons hd2 rest2 =>
        exact ih st1 st' (by simp) h

/-! The claims. -/

/-- C1 counterexample: on the Volume string `0% / 20 %` the claimed chain
(split, index 1, trim, strip `%`, parse) fails — the remainder `20 ` has
trailing whitespace and `parse::<f32>` rejects it — so per the claim the
stream would be omitted; the code, however, trims once more before
parsing and keeps the stream with volume `20`. -/
theorem c1_counterexample :
    derive_volumes [(1, [(("Volume"), ("0% / 20 %"))])] = [(1, 20)] ∧
    (lookupA ([(1, [(("Volume"), ("0% / 20 %"))])] : Snapshot) 1).bind
        (fun d => (lookupA d ("Volume")).bind extract_percent_spec) = none :=
  ⟨by with_unfolding_all decide, by with_unfolding_all decide⟩

/-- C1 (amended): for every stream of a duplicate-free snapshot, the
volume-table entry is exactly the chain split-on-`/`, field 1, trim,
strip trailing `%`, trim again, parse as float, applied to the stored
Volume property; when any step fails the stream is absent from the
table, and no error is produced. -/
theorem c1_volume_extraction_amended (apps : Snapshot) (pid : Nat)
    (hnd : (keysA apps).Nodup) :
    lookupA (derive_volumes apps) pid =
      (lookupA apps pid).bind (fun d => (lookupA d ("Volume")).bind extract_percent) := by
  rw [lookupA_derive_volumes apps pid hnd]
  cases lookupA apps pid with
  | none => rfl
  | some d => simp only [Option.some_bind, volumeOfProps_eq_bind]

/-- C1 witness: the amended chain evaluated on a concrete snapshot. -/
theorem c1_witness :
    lookupA (derive_volumes [(42, [(("Volume"), ("75% / 75%"))]), (7, [])]) 42 =
      (lookupA ([(42, [(("Volume"), ("75% / 75%"))]), (7, [])] : Snapshot) 42).bind
        (fun d => (lookupA d ("Volume")).bind extract_percent) :=
  c1_volume_extraction_amended _ 42 (by decide)

/-- C2: the three-line block `Sink Input #42` / `application.name =
"Firefox"` / `Volume: 75% / 75%` parses to the snapshot mapping 42 to
both properties, and the derived volume table maps 42 to 75. -/
theorem c2_firefox_block :
    parseSinkText ("Sink Input #42\napplication.name = \"Firefox\"\nVolume: 75% / 75%") =
      .ok [(42, [(("application.name"), ("Firefox")), (("Volume"), ("75% / 75%"))])] ∧
    derive_volumes [(42, [(("application.name"), ("Firefox")), (("Volume"), ("75% / 75%"))])] =
      [(42, 75)] :=
  ⟨by decide, by with_unfolding_all decide⟩

/-- C3: after every refresh — a `derive_volumes` rebuild, an
`update_step`, a nonempty drain of the update channel, or a
`refresh_apps` — the key set of the per-stream volume table is a subset
of the key set of the snapshot. -/
theorem c3_volume_table_subset :
    (∀ snap : Snapshot, keysA (derive_volumes snap) ⊆ keysA snap) ∧
    (∀ (st : AppState) (snap : Snapshot) (r : Except String CmdOut) (st' : AppState),
        update_step st snap r = .ok st' → keysA st'.per_app_volumes ⊆ keysA st'.apps) ∧
    (∀ (st : AppState) (batch : List (Snapshot × Except String CmdOut)) (st' : AppState),
        batch ≠ [] → update_drain st batch = .ok st' →
        keysA st'.per_app_volumes ⊆ keysA st'.apps) ∧
    (∀ (st : AppState) (r1 r2 : Except String CmdOut) (st' : AppState),
        refresh_apps st r1 r2 = .ok st' → keysA st'.per_app_volumes ⊆ keysA st'.apps) := by
  refine ⟨keysA_derive_volumes_subset, ?_, ?_, ?_⟩
  · intro st snap r st' h
    obtain ⟨ha, hp⟩ := update_step_ok_fields st snap r st' h
    rw [ha, hp]
    exact keysA_derive_volumes_subset snap
  · intro st batch st' hne h
    exact update_drain_subset batch st st' hne h
  · intro st r1 r2 st' h
    obtain ⟨snap, _, ha, hp⟩ := refresh_apps_ok_fields st r1 r2 st' h
    rw [ha, hp]
    exact keysA_derive_volumes_subset snap

/-- C3 witness: the subset conclusion obtained from a concrete
`update_step`. -/
theorem c3_witness :
    keysA ((⟨[(42, [(("Volume"), ("75% / 75%"))])], [(42, 75)], (0 : ℚ)⟩ :
        AppState).per_app_volumes) ⊆
      keysA ((⟨[(42, [(("Volume"), ("75% / 75%"))])], [(42, 75)], (0 : ℚ)⟩ :
        AppState).apps) :=
  c3_volume_table_subset.2.1 ⟨[], [], 0⟩ [(42, [(("Volume"), ("75% / 75%"))])]
    (.ok ⟨false, none, none⟩) _ (by with_unfolding_all decide)

/-- C4: when the main-volume command succeeds and the last
whitespace-separated token of its output parses as a number in `[0, 1]`,
the query returns that value times 100; non-zero exit, non-UTF-8 output
and an unparseable token each yield no value, and in that case the drain
step leaves the stored main volume unchanged. -/
theorem c4_main_volume_query :
    (∀ (out : CmdOut) (s : String) (t : List Char) (v : ℚ),
        out.success = true → out.stdout = some s →
        (splitWsCs (trimCs s.data)).getLast? = some t →
        parseF32 t = some v → 0 ≤ v → v ≤ 1 →
        get_system_volume (.ok out) = .ok (some (v * 100))) ∧
    (∀ out : CmdOut, out.success = false → get_system_volume (.ok out) = .ok none) ∧
    (∀ (b : Bool) (e : Option String), get_system_volume (.ok ⟨b, none, e⟩) = .ok none) ∧
    (∀ (out : CmdOut) (s : String), out.stdout = some s →
        (∀ t, (splitWsCs (trimCs s.data)).getLast? = some t → parseF32 t = none) →
        get_system_volume (.ok out) = .ok none) ∧
    (∀ (st : AppState) (snap : Snapshot) (r : Except String CmdOut) (st' : AppState),
        get_system_volume r = .ok none → update_step st snap r = .ok st' →
        st'.vol = st.vol) := by
  refine ⟨?_, ?_, ?_, ?_, update_step_ok_vol⟩
  · intro out s t v hsucc hstd hlast hparse _ _
    simp [get_system_volume, hsucc, hstd, hlast, hparse]
  · intro out hsucc
    simp [get_system_volume, hsucc]
  · intro b e
    cases b <;> rfl
  · intro out s hstd hbad
    simp only [get_system_volume]
    split
    · next hsucc =>
      rw [hstd]
      cases hl : (splitWsCs (trimCs ((some s).getD ("invalid UTF-8")).data)).getLast? with
      | none => rfl
      | some t =>
        simp [hbad t (by simpa using hl)]
    · rfl

/-- C4 witness: `Volume: 0.65` parses to 65 and `garbage` yields no
value. -/
theorem c4_witness :
    get_system_volume (.ok ⟨true, some ("Volume: 0.65"), none⟩) = .ok (some ((13/20) * 100)) ∧
    get_system_volume (.ok ⟨true, some ("garbage"), none⟩) = .ok none :=
  ⟨c4_main_volume_query.1 ⟨true, some ("Volume: 0.65"), none⟩ ("Volume: 0.65")
      (("0.65").data) (13/20) rfl rfl (by decide) (by with_unfolding_all decide)
      (by with_unfolding_all decide) (by with_unfolding_all decide),
    c4_main_volume_query.2.2.2.1 ⟨true, some ("garbage"), none⟩ ("garbage") rfl
      (by
        intro t ht
        have h1 : (splitWsCs (trimCs ("garbage").data)).getLast? = some (("garbage").data) := by
          decide
        rw [h1] at ht
        cases ht
        with_unfolding_all decide)⟩

/-- C5 counterexample: non-UTF-8 standard output makes the stream-list
parse panic (`expect("Invalid UTF-8 output")`) instead of substituting a
placeholder — decoding failure is fatal there. -/
theorem c5_counterexample :
    parse_sink_inputs (.ok ⟨true, none, none⟩) = .panic ("Invalid UTF-8 output") := rfl

/-- C5 (amended): non-UTF-8 output is substituted with a placeholder and
treated as unparseable in the main-volume queries only — `invalid UTF-8`
in `get_system_volume`, the empty string in the `refresh_apps` re-query —
while the stream-list parse panics on it. -/
theorem c5_utf8_handling_amended :
    (∀ (b : Bool) (e : Option String), get_system_volume (.ok ⟨b, none, e⟩) = .ok none) ∧
    (∀ (b : Bool) (e : Option String),
        parse_sink_inputs (.ok ⟨b, none, e⟩) = .panic ("Invalid UTF-8 output")) ∧
    (∀ (s : String) (b : Bool) (e : Option String),
        ∃ m, parse_sink_inputs (.ok ⟨b, some s, e⟩) = .ok m) ∧
    (∀ (st : AppState) (lr : Except String CmdOut) (snap : Snapshot) (b : Bool)
        (e : Option String), parse_sink_inputs lr = .ok snap →
        refresh_apps st lr (.ok ⟨b, none, e⟩) = .ok ⟨snap, derive_volumes snap, st.vol⟩) := by
  refine ⟨?_, fun b e => rfl, fun s b e => parseSinkText_ok s, ?_⟩
  · intro b e
    cases b <;> rfl
  · intro st lr snap b e hp
    unfold refresh_apps
    simp only [hp]
    cases b <;> rfl

/-- C5 witness: `refresh_apps` survives a non-UTF-8 main-volume output,
keeping the previous volume. -/
theorem c5_witness :
    refresh_apps ⟨[], [], 7⟩ (.ok ⟨true, some (""), none⟩) (.ok ⟨true, none, none⟩) =
      .ok ⟨[], derive_volumes [], (7 : ℚ)⟩ :=
  c5_utf8_handling_amended.2.2.2 ⟨[], [], 7⟩ (.ok ⟨true, some (""), none⟩) [] true none
    (by decide)

/-- C6 counterexample: a spawn failure of the main-volume query panics in
`update_step` — a call made after startup, on every drained snapshot — so
invocation failure can terminate the process after startup. -/
theorem c6_counterexample :
    update_step ⟨[], [], 0⟩ [] (.error ("No such file or directory")) =
      .panic ("failed to get volume") := rfl

/-- C6 (amended): the main-volume query aborts by panic on spawn failure
whenever it is invoked, at startup or later; a completed command never
panics there — non-zero exit and parse failures degrade to no data — and
the stream-list query likewise panics on spawn failure. -/
theorem c6_spawn_failure_amended :
    (∀ e : String, get_system_volume (.error e) = .panic ("failed to get volume")) ∧
    (∀ out : CmdOut, ∃ v, get_system_volume (.ok out) = .ok v) ∧
    (∀ (st : AppState) (snap : Snapshot) (e : String),
        update_step st snap (.error e) = .panic ("failed to get volume")) ∧
    (∀ e : String, parse_sink_inputs (.error e) = .panic ("Failed to execute pactl")) :=
  ⟨fun _ => rfl, get_system_volume_ok_never_panics, fun _ _ _ => rfl, fun _ => rfl⟩

/-- C7: `set_main_volume` spawns `wpctl set-volume @DEFAULT_AUDIO_SINK@
<percentage>%` with the percentage carrying exactly two decimal places,
and `set_app_volume` spawns `pactl set-sink-input-volume <id>
<percentage>%` with the id rendered in decimal; both discard the
command's result. -/
theorem c7_set_volume_commands :
    (∀ v : ℚ, set_main_volume v =
        ⟨("wpctl"), [("set-volume"), ("@DEFAULT_AUDIO_SINK@"), formatFixed2 v ++ ("%")]⟩) ∧
    (∀ v : ℚ, ∃ s m, formatFixed2 v = s ++ (".") ++ pad2 m ∧ m < 100 ∧ (pad2 m).length = 2) ∧
    (∀ (idx : Nat) (v : ℚ), set_app_volume idx v =
        ⟨("pactl"), [("set-sink-input-volume"), Nat.repr idx, formatF32Display v ++ ("%")]⟩) ∧
    set_main_volume 75 = ⟨("wpctl"), [("set-volume"), ("@DEFAULT_AUDIO_SINK@"), ("75.00%")]⟩ ∧
    set_app_volume 42 30 = ⟨("pactl"), [("set-sink-input-volume"), ("42"), ("30%")]⟩ := by
  refine ⟨fun v => rfl, ?_, fun idx v => rfl, ?_, ?_⟩
  · intro v
    obtain ⟨s, m, hs, hm⟩ := formatFixed2_shape v
    exact ⟨s, m, hs, hm, pad2_length m hm⟩
  · with_unfolding_all decide
  · with_unfolding_all decide

/-- C8 counterexample: with `pactl` failing to spawn, the background loop
stops at once by panic although no send ever failed — so the loop does
not terminate exactly on failed publishes. -/
theorem c8_counterexample :
    refresh_loop (fun _ => .panic ("Failed to execute pactl")) (fun _ => true) 7 =
      some ([.parseList], .panicked ("Failed to execute pactl")) := by decide

/-- C8 (amended): as long as `parse_sink_inputs` keeps succeeding, the
loop runs forever when every send succeeds, and otherwise stops right
after its first failed send with a 1-second sleep between iterations;
a panicking parse is the one further way it can stop. -/
theorem c8_loop_termination_amended (parses : Nat → Outcome Snapshot) (sends : Nat → Bool)
    (hp : ∀ i, ∃ s, parses i = .ok s) :
    ((∀ i, sends i = true) → ∀ fuel, refresh_loop parses sends fuel = none) ∧
    (∀ n fuel, (∀ i, i < n → sends i = true) → sends n = false → n < fuel →
        refresh_loop parses sends fuel = some (sendFailTrace n, .channelClosed)) :=
  ⟨fun hs => refresh_loop_runs_forever parses sends hp hs,
    fun n fuel h1 h2 h3 => refresh_loop_stops_at_first_failed_send n parses sends fuel hp h1 h2 h3⟩

/-- C8 witness: two successful sends, then a failed one, observed with
fuel 5. -/
theorem c8_witness :
    refresh_loop (fun _ => .ok []) (fun i => decide (i < 2)) 5 =
      some (sendFailTrace 2, .channelClosed) :=
  (c8_loop_termination_amended (fun _ => .ok []) (fun i => decide (i < 2))
      (fun _ => ⟨[], rfl⟩)).2 2 5 (fun _ hi => decide_eq_true hi) (by decide) (by decide)

/-- C9: the stream-list line loop never panics — whenever the cursor
holds an id that id is a key of the result, so the `unwrap` is
unreachable — and any run of lines containing no well-formed header,
processed while the cursor is unset, leaves the parse of the remaining
lines unchanged. -/
theorem c9_preheader_lines_safe :
    (∀ s : String, ∃ m, parseSinkText s = .ok m) ∧
    (∀ (st : ParseSt) (l : List Char), InvSt st →
        ∃ st', processLine st l = .ok st' ∧ InvSt st') ∧
    (∀ (pre rest : List (List Char)) (st : ParseSt), st.currentId = none →
        (∀ l ∈ pre, isGoodHeader l = false) →
        parseLinesSt st (pre ++ rest) = parseLinesSt st rest) :=
  ⟨parseSinkText_ok, fun st l h => processLine_ok st l h,
    fun pre rest st hc hl => parseLinesSt_append_of_no_header pre rest st hc hl⟩

/-- C9 witness: three headerless lines in front of a block change
nothing. -/
theorem c9_witness :
    parseLinesSt ⟨[], none⟩
        ([("garbage before").data, ("key = \"v\"").data, ("Volume: 50% / 50%").data] ++
          [("Sink Input #7").data]) =
      parseLinesSt ⟨[], none⟩ [("Sink Input #7").data] :=
  c9_preheader_lines_safe.2.2 _ _ _ rfl (by decide)

/-- C10: a `Sink Input #` line whose trailing text is not a `u32` leaves
the parser state — the cursor included — untouched, so the malformed
block creates no entry and its following lines land in the previous
block's mapping, or are ignored when no header parsed before. -/
theorem c10_malformed_header_behavior :
    (∀ (st : ParseSt) (l r : List Char),
        stripPfxCs sinkInputPfx (trimStartCs l) = some r →
        parseU32 (trimCs r) = none →
        splitOnceCs eqSepCs (trimStartCs l) = none →
        processLine st l = .ok st) ∧
    parseSinkText ("Sink Input #1\na = \"x\"\nSink Input #bad\nb = \"y\"\nVolume: 10% / 20%") =
      .ok [(1, [(("a"), ("x")), (("b"), ("y")), (("Volume"), ("10% / 20%"))])] ∧
    parseSinkText ("Sink Input #bad\nb = \"y\"") = .ok [] :=
  ⟨processLine_malformed_header, by decide, by decide⟩

/-- C10 witness: a malformed header processed with the cursor on block 5
changes nothing. -/
theorem c10_witness :
    processLine ⟨[(5, [])], some 5⟩ (("Sink Input #oops").data) = .ok ⟨[(5, [])], some 5⟩ :=
  c10_malformed_header_behavior.1 _ _ (("oops").data) (by decide) (by decide) (by decide)

end KVM
